import Mathlib

/-!
Verification development for the csv-plugin repository: a Node.js plugin
(`plugin.js` / `utils.js`, in a plain and a permissive variant) driven by a Go
conformance host (`host.go`).  The plugin classifies textual CSV cell values
into five types, infers per-file schemas (majority vote per column in the
permissive variant), and streams type-validated records; the host supervises
plugin startup via a one-line port handshake.

The JavaScript functions are shallowly embedded as executable Lean functions.
External runtime services are handled as follows:
* `Number(s)` (the JS ToNumber coercion on strings) is modelled by
  `jsIsNumeric`, a recognizer for the ECMAScript StringNumericLiteral grammar
  (whitespace-trimmed empty string, signed decimal literals with optional
  fraction and exponent, `Infinity`, and unsigned `0x`/`0o`/`0b` literals).
  The classifier only tests `isNaN(Number(s))`, so only parse success matters.
* `Date.parse` is implementation-defined beyond ISO 8601, so the classifier is
  parameterized by an arbitrary recognizer `dp : String -> Bool`.
* `parseFloat` results and `Date` objects are opaque to every property proved
  here, so `JsValue` records them together with the source text rather than
  modelling IEEE 754 / calendar arithmetic.
-/

namespace CsvPlugin

/-- The five type tags of the plugin protocol (`"integer"`, `"number"`,
`"boolean"`, `"datetime"`, `"string"` in the JS source). -/
inductive JsType where
  | integer
  | number
  | boolean
  | datetime
  | string
deriving DecidableEq, Repr

/-- The wire name of a type tag, as it appears in the JS strings. -/
def JsType.name : JsType → String
  | .integer => "integer"
  | .number => "number"
  | .boolean => "boolean"
  | .datetime => "datetime"
  | .string => "string"

/-- ECMAScript StrWhiteSpaceChar (the characters `Number()` trims): space,
tab, LF, VT, FF, CR, NBSP, BOM and the Unicode line/paragraph separators. -/
def jsWhite (c : Char) : Bool :=
  c = ' ' || c = '\t' || c = '\n' || c.val = 11 || c.val = 12 || c = '\r' ||
  c.val = 0xA0 || c.val = 0xFEFF || c.val = 0x2028 || c.val = 0x2029

/-- Trim JS whitespace from both ends of a character list. -/
def trimWhite (l : List Char) : List Char :=
  ((l.dropWhile jsWhite).reverse.dropWhile jsWhite).reverse

def isDec (c : Char) : Bool := '0' ≤ c && c ≤ '9'

def isHex (c : Char) : Bool :=
  isDec c || ('a' ≤ c && c ≤ 'f') || ('A' ≤ c && c ≤ 'F')

def isOct (c : Char) : Bool := '0' ≤ c && c ≤ '7'

def isBin (c : Char) : Bool := c = '0' || c = '1'

/-- ExponentPart? — the optional tail `[eE][+-]?digits` of a decimal literal. -/
def expTail : List Char → Bool
  | [] => true
  | c :: r =>
    (c = 'e' || c = 'E') &&
      (match r with
       | '+' :: d => d ≠ [] && d.all isDec
       | '-' :: d => d ≠ [] && d.all isDec
       | d => d ≠ [] && d.all isDec)

/-- StrUnsignedDecimalLiteral: `Infinity`, `digits [. digits?] exp?`, or
`. digits exp?`. -/
def isUnsignedDec (l : List Char) : Bool :=
  if l = "Infinity".data then true
  else
    let intPart := l.takeWhile isDec
    let rest := l.dropWhile isDec
    match rest with
    | [] => intPart ≠ []
    | '.' :: r2 =>
      let frac := r2.takeWhile isDec
      let r3 := r2.dropWhile isDec
      (intPart ≠ [] || frac ≠ []) && expTail r3
    | _ => intPart ≠ [] && expTail rest

/-- NonDecimalIntegerLiteral: `0x`/`0o`/`0b` literals (no sign allowed). -/
def isNonDecInt : List Char → Bool
  | '0' :: b :: ds =>
    ((b = 'x' || b = 'X') && ds ≠ [] && ds.all isHex) ||
    ((b = 'o' || b = 'O') && ds ≠ [] && ds.all isOct) ||
    ((b = 'b' || b = 'B') && ds ≠ [] && ds.all isBin)
  | _ => false

/-- StrNumericLiteral: an optionally signed decimal literal or an unsigned
non-decimal integer literal. -/
def isNumLit (l : List Char) : Bool :=
  isNonDecInt l ||
    (match l with
     | '+' :: r => isUnsignedDec r
     | '-' :: r => isUnsignedDec r
     | r => isUnsignedDec r)

/-- `!isNaN(Number(property))` — true iff the string coerces to a non-NaN JS
number: after trimming whitespace it is empty or a StrNumericLiteral.
(`Number("") = 0`, so the empty and all-whitespace strings pass.) -/
def jsIsNumeric (s : String) : Bool :=
  let t := trimWhite s.data
  t = [] || isNumLit t

/-- `property.indexOf('.') != -1` on the original (untrimmed) string. -/
def hasDot (s : String) : Bool := s.data.contains '.'

/-- `s.toLowerCase()`, restricted to the ASCII case mapping.  (The JS method
is full-Unicode, but equality with the ASCII tokens `true`/`false`/`t`/`f`
is decided by the ASCII letters alone.) -/
def toLowerStr (s : String) : String := ⟨s.data.map Char.toLower⟩

/-- The permissive boolean token test of `part_001`:
`p.toLowerCase() == 'true' || == 'false' || == 't' || == 'f'`. -/
def boolTokP (s : String) : Bool :=
  toLowerStr s = "true" || toLowerStr s = "false" ||
  toLowerStr s = "t" || toLowerStr s = "f"

/-- The plain boolean token test of `plugin/node/utils.js`:
`p.toLowerCase() == 'true' || == 'false'`. -/
def boolTokS (s : String) : Bool :=
  toLowerStr s = "true" || toLowerStr s = "false"

/-- `getType` of `part_001` (permissive variant), parameterized by the
`Date.parse` success predicate `dp`:
number test first (integer without `'.'`, number with), then the boolean
token set, then datetime, else string. -/
def getTypeP (dp : String → Bool) (property : String) : JsType :=
  if jsIsNumeric property then
    if hasDot property = false then .integer else .number
  else if boolTokP property then .boolean
  else if dp property then .datetime
  else .string

/-- `getType` of `plugin/node/utils.js` (plain variant). -/
def getTypeS (dp : String → Bool) (property : String) : JsType :=
  if jsIsNumeric property then
    if hasDot property = false then .integer else .number
  else if boolTokS property then .boolean
  else if dp property then .datetime
  else .string

example : jsIsNumeric "5" = true := by decide
example : jsIsNumeric "5.0" = true := by decide
example : jsIsNumeric "" = true := by decide
example : jsIsNumeric "  " = true := by decide
example : jsIsNumeric "true" = false := by decide
example : jsIsNumeric "1796-07-23" = false := by decide
example : jsIsNumeric "0x1F" = true := by decide
example : jsIsNumeric "-2.5e3" = true := by decide
example : jsIsNumeric "blue" = false := by decide
example : jsIsNumeric "5." = true := by decide
example : jsIsNumeric "." = false := by decide
example : getTypeP (fun _ => false) "5" = .integer := by decide
example : getTypeP (fun _ => false) "5.0" = .number := by decide
example : getTypeP (fun _ => false) "TRUE" = .boolean := by decide
example : getTypeP (fun _ => false) "f" = .boolean := by decide
example : getTypeS (fun _ => false) "f" = .string := by decide
example : getTypeP (fun _ => true) "1796-07-23" = .datetime := by decide
example : getTypeP (fun _ => false) "blue" = .string := by decide

/-! ## Conversion (`convertToType`) -/

/-- Accumulate decimal digits into a natural number. -/
def natOfDec (ds : List Char) : Nat :=
  ds.foldl (fun a c => 10 * a + (c.toNat - 48)) 0

/-- Accumulate hexadecimal digits into a natural number. -/
def natOfHex (ds : List Char) : Nat :=
  ds.foldl
    (fun a c =>
      16 * a +
        (if isDec c then c.toNat - 48
         else if 'a' ≤ c && c ≤ 'f' then c.toNat - 87
         else c.toNat - 55))
    0

/-- JS `parseInt(data)` with the default radix: skip leading whitespace, read
an optional sign, then either a `0x`/`0X` hexadecimal literal or leading
decimal digits; `none` models the `NaN` result when no digit is found.
(Double-precision rounding of huge literals is outside every property proved
here.) -/
def jsParseInt (s : String) : Option Int :=
  let l := s.data.dropWhile jsWhite
  let (neg, l2) := match l with
    | '+' :: t => (false, t)
    | '-' :: t => (true, t)
    | t => (false, t)
  match l2 with
  | '0' :: 'x' :: t =>
    let ds := t.takeWhile isHex
    if ds = [] then some 0 else
      some (if neg then -(natOfHex ds : Int) else (natOfHex ds : Int))
  | '0' :: 'X' :: t =>
    let ds := t.takeWhile isHex
    if ds = [] then some 0 else
      some (if neg then -(natOfHex ds : Int) else (natOfHex ds : Int))
  | t =>
    let ds := t.takeWhile isDec
    if ds = [] then none else
      some (if neg then -(natOfDec ds : Int) else (natOfDec ds : Int))

/-- A converted cell value.  `parseFloat` results and normalized `Date`
objects carry their source text: no claim inspects their numeric or calendar
semantics, only which conversion was applied to which cell. -/
inductive JsValue where
  /-- `parseInt(data)`; `none` is JS `NaN`. -/
  | intVal : Option Int → JsValue
  /-- `parseFloat(data)`, recorded by its argument. -/
  | floatRaw : String → JsValue
  /-- the boolean-branch result. -/
  | boolVal : Bool → JsValue
  /-- `new Date(data)` with `setUTCHours(0,0,0,0)`, recorded by its argument. -/
  | dateRaw : String → JsValue
  /-- the string passed through unchanged. -/
  | strVal : String → JsValue
  /-- the `null` placeholder written over a mismatched cell. -/
  | nullVal : JsValue
deriving DecidableEq, Repr

/-- `convertToType` of `part_001` (permissive variant).  The boolean case is
the verbatim token-membership disjunction
`data.toLowerCase() == 'true' || == 'false' || == 't' || == 'f'`. -/
def convertToTypeP (data : String) : JsType → JsValue
  | .integer => .intVal (jsParseInt data)
  | .number => .floatRaw data
  | .boolean => .boolVal (boolTokP data)
  | .datetime => .dateRaw data
  | .string => .strVal data

/-- `convertToType` of `plugin/node/utils.js` (plain variant): the boolean
case tests only `'true'`/`'false'`. -/
def convertToTypeS (data : String) : JsType → JsValue
  | .integer => .intVal (jsParseInt data)
  | .number => .floatRaw data
  | .boolean => .boolVal (boolTokS data)
  | .datetime => .dateRaw data
  | .string => .strVal data

/-! ## Row validation and publishing (`checkValidTypes`, `publishFile`) -/

/-- A schema property `{name, type}`. -/
structure SProp where
  name : String
  type : JsType
deriving DecidableEq, Repr

/-- A schema `{name, settings, properties}` as built by `getSchema`. -/
structure SchemaR where
  name : String
  settings : List String
  properties : List SProp
deriving DecidableEq, Repr

/-- A streamed `PublishRecord`: `invalid` flag, optional `error` string, and
the converted `data` array. -/
structure PublishRec where
  invalid : Bool
  error : Option String
  data : List JsValue
deriving DecidableEq, Repr

/-- The error string built by `checkValidTypes`:
`` `Expected type: ${types[i].type} but got type: ${type}` ``.  It names the
two types; the mismatch index is returned in the separate `index` field. -/
def errMsg (expected got : JsType) : String :=
  "Expected type: " ++ expected.name ++ " but got type: " ++ got.name

/-- The scan loop of `checkValidTypes`: walk the cells left to right,
re-classify each with `getType`, and stop at the first cell whose runtime
type differs from the declared column type, returning
`(index, declared, observed)`.  `none` means every cell matched.
(`publishFile` only calls this with equally long lists; a longer cell list
would make the JS crash on `types[i].type`, and the leftover-cells case below
is unreachable under that guard.) -/
def cvtGo (dp : String → Bool) : Nat → List String → List SProp →
    Option (Nat × JsType × JsType)
  | _, [], _ => none
  | _, _ :: _, [] => none
  | i, c :: cs, p :: ps =>
    if getTypeP dp c ≠ p.type then some (i, p.type, getTypeP dp c)
    else cvtGo dp (i + 1) cs ps

/-- `checkValidTypes(properties, types)` of `part_001`. -/
def checkValidTypes (dp : String → Bool) (cells : List String)
    (props : List SProp) : Option (Nat × JsType × JsType) :=
  cvtGo dp 0 cells props

/-- Convert every cell per its declared column type
(the `row[j] = convertToType(row[j], types[j])` loop when no index is
skipped, i.e. when `validCheck.index` is `null`). -/
def convCells : List String → List SProp → List JsValue
  | [], _ => []
  | _ :: _, [] => []
  | c :: cs, p :: ps => convertToTypeP c p.type :: convCells cs ps

/-- The conversion loop when `validCheck.index` is a number `i`: JS loose
equality `j != validCheck.index` skips exactly position `i`, which is then
overwritten with `null`. -/
def convCellsNull (i : Nat) (cells : List String) (props : List SProp) :
    List JsValue :=
  go 0 cells props
where
  go : Nat → List String → List SProp → List JsValue
    | _, [], _ => []
    | _, _ :: _, [] => []
    | j, c :: cs, p :: ps =>
      (if j = i then .nullVal else convertToTypeP c p.type) ::
        go (j + 1) cs ps

/-- The per-row body of `publishFile` in `part_001`: rows whose cell count
differs from the schema's property count are skipped without any write
(`if (row.length == types.length)`); otherwise one record is written, shaped
by the `checkValidTypes` outcome. -/
def publishRow (dp : String → Bool) (props : List SProp)
    (row : List String) : Option PublishRec :=
  if row.length = props.length then
    some
      (match checkValidTypes dp row props with
       | some (i, expected, got) =>
         { invalid := true
           error := some (errMsg expected got)
           data := convCellsNull i row props }
       | none =>
         { invalid := false
           error := none
           data := convCells row props })
  else none

/-- All records written by one `publishFile` call, in row order. -/
def publishFileRecs (dp : String → Bool) (props : List SProp)
    (rows : List (List String)) : List PublishRec :=
  rows.filterMap (publishRow dp props)

/-- The records written by `Publish` over the files of a schema's settings.
Only the multiset of records is meaningful: `Publish` starts one concurrent
`publishFile` promise per file, so the cross-file interleaving is decided by
the event loop; counting properties are interleaving-invariant. -/
def publishAll (dp : String → Bool) (props : List SProp)
    (files : List (List (List String))) : List PublishRec :=
  (files.map (publishFileRecs dp props)).flatten

example :
    publishRow (fun _ => false)
      [⟨"name", .string⟩, ⟨"extinct", .boolean⟩] ["fox", "blue"] =
    some
      { invalid := true
        error := some "Expected type: boolean but got type: string"
        data := [.strVal "fox", .nullVal] } := by decide

example :
    publishRow (fun _ => false)
      [⟨"id", .integer⟩, ⟨"name", .string⟩] ["5", "fox"] =
    some
      { invalid := false
        error := none
        data := [.intVal (some 5), .strVal "fox"] } := by decide

example :
    publishRow (fun _ => false) [⟨"id", .integer⟩] ["5", "6"] = none := by
  decide

/-! ## Schema discovery (`getSchema`, `getIndexOfMax`) -/

/-- `getIndexOfMax(arr)`: `-1` on the empty array, otherwise the index of the
largest value, the loop `if (arr[i] > max)` keeping the first index on ties. -/
def getIndexOfMax (arr : List Nat) : Int :=
  match arr with
  | [] => -1
  | a :: rest => (go rest 1 a 0 : Nat)
where
  go : List Nat → Nat → Nat → Nat → Nat
    | [], _, _, maxIdx => maxIdx
    | a :: rest, i, max, maxIdx =>
      if a > max then go rest (i + 1) a i else go rest (i + 1) max maxIdx

/-- Number of values in a column sample classified as `t` — the count that
the `typeCountArray[j][k]++` switch accumulates for slot `k`. -/
def tally (dp : String → Bool) (vals : List String) (t : JsType) : Nat :=
  (vals.filter (fun v => getTypeP dp v = t)).length

/-- The per-column count array `[integer, number, boolean, datetime, string]`
(`typeCountArray[j]`). -/
def countsArr (dp : String → Bool) (vals : List String) : List Nat :=
  [tally dp vals .integer, tally dp vals .number, tally dp vals .boolean,
   tally dp vals .datetime, tally dp vals .string]

/-- The `switch (typeIndex)` mapping count-array slots back to type tags.
The count array always has five entries, so the index is in `[0, 4]`; the
final case is slot 4, string. -/
def typeOfIndex (n : Int) : JsType :=
  if n = 0 then .integer
  else if n = 1 then .number
  else if n = 2 then .boolean
  else if n = 3 then .datetime
  else .string

/-- The slot of each type in the count array; lower slot = earlier in the
fixed order integer, number, boolean, datetime, string. -/
def prio : JsType → Nat
  | .integer => 0
  | .number => 1
  | .boolean => 2
  | .datetime => 3
  | .string => 4

/-- The type chosen for one column: argmax of the tallies via
`getIndexOfMax`. -/
def colType (dp : String → Bool) (vals : List String) : JsType :=
  typeOfIndex (getIndexOfMax (countsArr dp vals))

/-- The values contributing to column `j`'s tallies: the `j`-th cell of every
sampled row that has one. -/
def colVals (j : Nat) (rows : List (List String)) : List String :=
  rows.filterMap (fun r => r.get? j)

/-- The inferred property list: one `{name: keys[j], type: majority type of
column j}` per header field. -/
def inferProps (dp : String → Bool) (header : List String)
    (rows : List (List String)) : List SProp :=
  header.enum.map (fun kj => ⟨kj.2, colType dp (colVals kj.1 rows)⟩)

/-- `filepath.split('.')[0]`: the prefix of the whole path before its first
`'.'` (the whole path when it has none). -/
def jsSplitFirstDot (s : String) : String :=
  ⟨s.data.takeWhile (fun c => c ≠ '.')⟩

/-- Node `path.basename(p)` for the paths at hand: drop trailing `/`
separators, then keep the part after the last `/`. -/
def jsBasename (p : String) : String :=
  let l := (p.data.reverse.dropWhile (fun c => c = '/'))
  ⟨(l.takeWhile (fun c => c ≠ '/')).reverse⟩

/-- Node `path.basename(p, ext)`: strip `ext` when it is a proper suffix of
the base name.  (In `getSchema` the argument has already lost every `'.'`,
so the `".csv"` suffix never fires; it is kept for faithfulness.) -/
def jsBasenameExt (p ext : String) : String :=
  let b := jsBasename p
  if b ≠ ext ∧ ext.data ≠ [] ∧ ext.data.isSuffixOf b.data then
    ⟨b.data.take (b.data.length - ext.data.length)⟩
  else b

/-- The schema name computed by `getSchema`:
`path.basename(filepath.split('.')[0], '.csv')`. -/
def schemaName (filepath : String) : String :=
  jsBasenameExt (jsSplitFirstDot filepath) ".csv"

/-- Modelled from the spec's words for comparison (claim C8): "the file's
base name (the file name without directory or extension)" — strip the
directory, then drop the last-dot extension of the file name itself. -/
def baseNameNoExtSpec (p : String) : String :=
  let b := jsBasename p
  if b.data.contains '.' then
    ⟨(b.data.reverse.dropWhile (fun c => c ≠ '.')).drop 1 |>.reverse⟩
  else b

/-- `getSchema` of `part_001`, per parsed file.  `csvtojson` yields one
object per data row whose keys are the header fields, so the embedding takes
the header and the cell rows; `Object.keys(data[0])` throws on a file with
zero data rows, modelled as `none`. -/
def getSchemaR (dp : String → Bool) (filepath : String)
    (header : List String) (rows : List (List String)) : Option SchemaR :=
  match rows with
  | [] => none
  | _ :: _ =>
    some
      { name := schemaName filepath
        settings := [filepath]
        properties := inferProps dp header rows }

example : schemaName "data/people.1.csv" = "people" := by decide
example : schemaName "/x/data/animals.csv" = "animals" := by decide
example : baseNameNoExtSpec "data/people.1.csv" = "people.1" := by decide
example :
    colType (fun _ => false) ["1", "2", "x"] = .integer := by decide
example :
    colType (fun _ => false) ["x", "y", "1"] = .string := by decide
example : colType (fun _ => false) ["1", "1.5"] = .integer := by decide

/-! ## Host startup handshake (`host.go`) -/

/-- Go `strconv.Atoi`: an optional sign followed by one or more ASCII
decimal digits, nothing else, with the value required to fit in `int64`. -/
def goAtoi (s : String) : Option Int :=
  let (neg, ds) := match s.data with
    | '+' :: t => (false, t)
    | '-' :: t => (true, t)
    | t => (false, t)
  if ds = [] || !ds.all isDec then none
  else
    let v : Int := if neg then -(natOfDec ds : Int) else (natOfDec ds : Int)
    if -(2 ^ 63) ≤ v ∧ v < 2 ^ 63 then some v else none

/-- The first event the host observes during startup: the 5-second timer
firing, the plugin process exiting with a code, or the first line read from
the plugin's stdout. -/
inductive StartupEvent where
  | timeout
  | exited (code : Int)
  | gotLine (line : String)

/-- How the host's startup race resolves. -/
inductive HostOutcome where
  | fatalError
  | cleanExit
  | accepted (port : Int)
deriving DecidableEq, Repr

/-- The host's reaction to the startup race.  `fatalError` is `log.Fatalf`
(nonzero exit); `cleanExit` is `os.Exit(exitCode)` with code 0; `accepted p`
means the handshake succeeded and `runTests(p)` runs.  This mirrors the
`select` in `main` together with `monitorStdout`, whose `strconv.Atoi`
failure is itself a `log.Fatalf`. -/
def hostStartup : StartupEvent → HostOutcome
  | .timeout => .fatalError
  | .exited c => if c ≠ 0 then .fatalError else .cleanExit
  | .gotLine l =>
    match goAtoi l with
    | some p => .accepted p
    | none => .fatalError

example : goAtoi "5000" = some 5000 := by decide
example : goAtoi "0" = some 0 := by decide
example : goAtoi "-17" = some (-17) := by decide
example : goAtoi " 5" = none := by decide
example : goAtoi "5000\r" = none := by decide
example : goAtoi "" = none := by decide

/-! ## Substring containment (for "the error names the index") -/

/-- `leadsWith pat l`: `pat` is an initial run of `l`. -/
def leadsWith : List Char → List Char → Bool
  | [], _ => true
  | _ :: _, [] => false
  | a :: as, b :: bs => a = b && leadsWith as bs

/-- `hasRun pat l`: `pat` occurs contiguously somewhere in `l`. -/
def hasRun (pat : List Char) : List Char → Bool
  | [] => leadsWith pat []
  | c :: t => leadsWith pat (c :: t) || hasRun pat t

/-- A string `s` names a natural `i` when the decimal digits of `i` occur in
`s`. -/
def namesNat (s : String) (i : Nat) : Bool :=
  hasRun (toString i).data s.data

example : namesNat "Expected type: boolean but got type: string" 2 =
    false := by decide
example : namesNat "index 2 bad" 2 = true := by decide

/-! ## Helper lemmas -/

/-- Characterization of the permissive classifier: the five outcomes are the
five branches of the `if` chain, in priority order. -/
theorem getTypeP_char (dp : String → Bool) (s : String) :
    (getTypeP dp s = .integer ↔ jsIsNumeric s = true ∧ hasDot s = false) ∧
    (getTypeP dp s = .number ↔ jsIsNumeric s = true ∧ hasDot s = true) ∧
    (getTypeP dp s = .boolean ↔ jsIsNumeric s = false ∧ boolTokP s = true) ∧
    (getTypeP dp s = .datetime ↔
      jsIsNumeric s = false ∧ boolTokP s = false ∧ dp s = true) ∧
    (getTypeP dp s = .string ↔
      jsIsNumeric s = false ∧ boolTokP s = false ∧ dp s = false) := by
  unfold getTypeP
  cases h1 : jsIsNumeric s <;> cases h2 : hasDot s <;>
    cases h3 : boolTokP s <;> cases h4 : dp s <;> simp

/-- Characterization of the plain classifier. -/
theorem getTypeS_char (dp : String → Bool) (s : String) :
    (getTypeS dp s = .integer ↔ jsIsNumeric s = true ∧ hasDot s = false) ∧
    (getTypeS dp s = .number ↔ jsIsNumeric s = true ∧ hasDot s = true) ∧
    (getTypeS dp s = .boolean ↔ jsIsNumeric s = false ∧ boolTokS s = true) ∧
    (getTypeS dp s = .datetime ↔
      jsIsNumeric s = false ∧ boolTokS s = false ∧ dp s = true) ∧
    (getTypeS dp s = .string ↔
      jsIsNumeric s = false ∧ boolTokS s = false ∧ dp s = false) := by
  unfold getTypeS
  cases h1 : jsIsNumeric s <;> cases h2 : hasDot s <;>
    cases h3 : boolTokS s <;> cases h4 : dp s <;> simp

/-- On an all-whitespace string the permissive classifier returns integer:
`Number` coerces it to `0` and it cannot contain `'.'`. -/
theorem getTypeP_white (dp : String → Bool) (s : String)
    (h : ∀ c ∈ s.data, jsWhite c = true) : getTypeP dp s = .integer := by
  have hnum : jsIsNumeric s = true := by
    unfold jsIsNumeric trimWhite
    have : s.data.dropWhile jsWhite = [] :=
      List.dropWhile_eq_nil_iff.mpr h
    simp [this]
  have hdot : hasDot s = false := by
    unfold hasDot
    by_contra hc
    have hmem : '.' ∈ s.data := by
      simpa using Bool.of_not_eq_false hc
    have := h '.' hmem
    simp [jsWhite] at this
  unfold getTypeP
  simp [hnum, hdot]

/-! ## Claim theorems: per-value classification and conversion -/

/-- Claim C1: the per-value classifier assigns exactly one of the five types
by strict first-match priority — integer for a numeric parse without `'.'`,
then number for a numeric parse with `'.'`, then boolean for the token set
(`{true, false}`, plus `{t, f}` in the permissive variant), then datetime
when the date recognizer accepts, else string; in particular `"5"` is
integer, `"5.0"` is number, `"true"`/`"false"` are boolean, a string accepted
only by the date recognizer is datetime, and anything else is string. -/
theorem claim_C1 :
    (∀ (dp : String → Bool) (s : String),
      (getTypeP dp s = .integer ↔ jsIsNumeric s = true ∧ hasDot s = false) ∧
      (getTypeP dp s = .number ↔ jsIsNumeric s = true ∧ hasDot s = true) ∧
      (getTypeP dp s = .boolean ↔
        jsIsNumeric s = false ∧ boolTokP s = true) ∧
      (getTypeP dp s = .datetime ↔
        jsIsNumeric s = false ∧ boolTokP s = false ∧ dp s = true) ∧
      (getTypeP dp s = .string ↔
        jsIsNumeric s = false ∧ boolTokP s = false ∧ dp s = false)) ∧
    (∀ (dp : String → Bool) (s : String),
      getTypeS dp s = .boolean ↔ jsIsNumeric s = false ∧ boolTokS s = true) ∧
    (∀ dp, getTypeP dp "5" = .integer ∧ getTypeS dp "5" = .integer) ∧
    (∀ dp, getTypeP dp "5.0" = .number ∧ getTypeS dp "5.0" = .number) ∧
    (∀ dp, getTypeP dp "true" = .boolean ∧ getTypeP dp "false" = .boolean ∧
      getTypeS dp "true" = .boolean ∧ getTypeS dp "false" = .boolean ∧
      getTypeP dp "t" = .boolean ∧ getTypeP dp "f" = .boolean) ∧
    (∀ (dp : String → Bool) (s : String),
      jsIsNumeric s = false → boolTokP s = false → dp s = true →
        getTypeP dp s = .datetime) ∧
    (∀ (dp : String → Bool) (s : String),
      jsIsNumeric s = false → boolTokP s = false → dp s = false →
        getTypeP dp s = .string) := by
  refine ⟨getTypeP_char, fun dp s => (getTypeS_char dp s).2.2.1, ?_, ?_, ?_,
    ?_, ?_⟩
  · exact fun dp =>
      ⟨(getTypeP_char dp "5").1.mpr ⟨by decide, by decide⟩,
       (getTypeS_char dp "5").1.mpr ⟨by decide, by decide⟩⟩
  · exact fun dp =>
      ⟨(getTypeP_char dp "5.0").2.1.mpr ⟨by decide, by decide⟩,
       (getTypeS_char dp "5.0").2.1.mpr ⟨by decide, by decide⟩⟩
  · exact fun dp =>
      ⟨(getTypeP_char dp "true").2.2.1.mpr ⟨by decide, by decide⟩,
       (getTypeP_char dp "false").2.2.1.mpr ⟨by decide, by decide⟩,
       (getTypeS_char dp "true").2.2.1.mpr ⟨by decide, by decide⟩,
       (getTypeS_char dp "false").2.2.1.mpr ⟨by decide, by decide⟩,
       (getTypeP_char dp "t").2.2.1.mpr ⟨by decide, by decide⟩,
       (getTypeP_char dp "f").2.2.1.mpr ⟨by decide, by decide⟩⟩
  · exact fun dp s h1 h2 h3 =>
      (getTypeP_char dp s).2.2.2.1.mpr ⟨h1, h2, h3⟩
  · exact fun dp s h1 h2 h3 =>
      (getTypeP_char dp s).2.2.2.2.mpr ⟨h1, h2, h3⟩

/-- Witness for C1 at concrete inputs: a date-recognized string classifies as
datetime, an unrecognized word as string. -/
theorem claim_C1_witness :
    getTypeP (fun _ => true) "1796-07-23" = .datetime ∧
    getTypeP (fun _ => false) "blue!" = .string :=
  ⟨claim_C1.2.2.2.2.2.1 (fun _ => true) "1796-07-23" (by decide) (by decide)
      rfl,
   claim_C1.2.2.2.2.2.2 (fun _ => false) "blue!" (by decide) (by decide) rfl⟩

/-- Claim C9: conversion under declared type boolean returns the membership
test `text is in the boolean token set`, not the denoted value — `"true"`
converts to true, but `"false"` (and, permissively, `"f"`) also convert to
true, and any text outside the token set converts to false. -/
theorem claim_C9 :
    (∀ s, convertToTypeP s .boolean = .boolVal (boolTokP s)) ∧
    (∀ s, convertToTypeS s .boolean = .boolVal (boolTokS s)) ∧
    convertToTypeP "true" .boolean = .boolVal true ∧
    convertToTypeP "false" .boolean = .boolVal true ∧
    convertToTypeP "f" .boolean = .boolVal true ∧
    convertToTypeS "false" .boolean = .boolVal true ∧
    convertToTypeS "f" .boolean = .boolVal false ∧
    (∀ s, boolTokP s = false → convertToTypeP s .boolean = .boolVal false) ∧
    (∀ s, boolTokS s = false → convertToTypeS s .boolean = .boolVal false) := by
  refine ⟨fun s => rfl, fun s => rfl, by decide, by decide, by decide,
    by decide, by decide, ?_, ?_⟩
  · intro s h; simp [convertToTypeP, h]
  · intro s h; simp [convertToTypeS, h]

/-- Witness for C9: a non-token text converts to false. -/
theorem claim_C9_witness :
    convertToTypeP "blue" .boolean = .boolVal false :=
  claim_C9.2.2.2.2.2.2.2.1 "blue" (by decide)

/-- Claim C10: the empty string (and every all-whitespace string) passes the
numeric test and has no `'.'`, so it classifies as integer; hence an empty
cell counts toward the integer tally in the majority vote, and an empty cell
in a declared-integer column passes the publish-time validity check. -/
theorem claim_C10 :
    (∀ dp : String → Bool,
      getTypeP dp "" = .integer ∧ getTypeS dp "" = .integer) ∧
    (∀ (dp : String → Bool) (s : String),
      (∀ c ∈ s.data, jsWhite c = true) → getTypeP dp s = .integer) ∧
    (∀ (dp : String → Bool) (vs : List String),
      tally dp ("" :: vs) .integer = tally dp vs .integer + 1) ∧
    (∀ dp : String → Bool,
      checkValidTypes dp [""] [⟨"n", .integer⟩] = none) ∧
    (∀ dp : String → Bool,
      publishRow dp [⟨"n", .integer⟩] [""] =
        some { invalid := false, error := none, data := [.intVal none] }) := by
  have hint : ∀ dp : String → Bool, getTypeP dp "" = .integer := fun dp =>
    (getTypeP_char dp "").1.mpr ⟨by decide, by decide⟩
  refine ⟨fun dp => ⟨hint dp,
      (getTypeS_char dp "").1.mpr ⟨by decide, by decide⟩⟩,
    getTypeP_white, ?_, ?_, ?_⟩
  · intro dp vs
    simp [tally, List.filter_cons, hint dp]
  · intro dp
    simp [checkValidTypes, cvtGo, hint dp]
  · intro dp
    simp [publishRow, checkValidTypes, cvtGo, hint dp, convCells,
      convertToTypeP, show jsParseInt "" = none from rfl]

/-- Witness for C10 at concrete inputs: a single-space cell classifies as
integer and an empty cell in an integer column yields a valid record. -/
theorem claim_C10_witness :
    getTypeP (fun _ => false) " " = .integer ∧
    publishRow (fun _ => false) [⟨"n", .integer⟩] [""] =
      some { invalid := false, error := none, data := [.intVal none] } :=
  ⟨claim_C10.2.1 (fun _ => false) " " (by decide),
   claim_C10.2.2.2.2 (fun _ => false)⟩

/-! ## Claim theorems: majority-vote schema inference -/

/-- `getIndexOfMax` on a five-entry count array picks the slot whose count is
strictly above every earlier slot and at least every later slot — the first
argmax. -/
theorem pick5 (c0 c1 c2 c3 c4 : Nat) :
    (typeOfIndex (getIndexOfMax [c0, c1, c2, c3, c4]) = .integer ∧
      c1 ≤ c0 ∧ c2 ≤ c0 ∧ c3 ≤ c0 ∧ c4 ≤ c0) ∨
    (typeOfIndex (getIndexOfMax [c0, c1, c2, c3, c4]) = .number ∧
      c0 < c1 ∧ c2 ≤ c1 ∧ c3 ≤ c1 ∧ c4 ≤ c1) ∨
    (typeOfIndex (getIndexOfMax [c0, c1, c2, c3, c4]) = .boolean ∧
      c0 < c2 ∧ c1 < c2 ∧ c3 ≤ c2 ∧ c4 ≤ c2) ∨
    (typeOfIndex (getIndexOfMax [c0, c1, c2, c3, c4]) = .datetime ∧
      c0 < c3 ∧ c1 < c3 ∧ c2 < c3 ∧ c4 ≤ c3) ∨
    (typeOfIndex (getIndexOfMax [c0, c1, c2, c3, c4]) = .string ∧
      c0 < c4 ∧ c1 < c4 ∧ c2 < c4 ∧ c3 < c4) := by
  simp only [getIndexOfMax, getIndexOfMax.go]
  split_ifs <;> norm_num [typeOfIndex] <;> omega

/-- The column type chosen by the tally/argmax pipeline has a maximal tally,
and its count-array slot is the earliest among the tied types. -/
theorem colType_spec (dp : String → Bool) (vals : List String) :
    (∀ t, tally dp vals t ≤ tally dp vals (colType dp vals)) ∧
    (∀ t, tally dp vals t = tally dp vals (colType dp vals) →
      prio (colType dp vals) ≤ prio t) := by
  have h := pick5 (tally dp vals .integer) (tally dp vals .number)
    (tally dp vals .boolean) (tally dp vals .datetime)
    (tally dp vals .string)
  have hc : colType dp vals =
      typeOfIndex (getIndexOfMax
        [tally dp vals .integer, tally dp vals .number,
         tally dp vals .boolean, tally dp vals .datetime,
         tally dp vals .string]) := rfl
  rw [hc]
  rcases h with ⟨he, h1, h2, h3, h4⟩ | ⟨he, h1, h2, h3, h4⟩ |
    ⟨he, h1, h2, h3, h4⟩ | ⟨he, h1, h2, h3, h4⟩ | ⟨he, h1, h2, h3, h4⟩ <;>
    rw [he] <;>
    refine ⟨fun t => ?_, fun t ht => ?_⟩ <;> cases t <;>
    first
      | omega
      | decide

/-- Claim C2: discovery selects each column's type by majority vote over the
classifications of that column's sampled values, ties broken by the fixed
slot order integer, number, boolean, datetime, string; in particular a
column of nine integers and one stray word infers as integer. -/
theorem claim_C2 :
    (∀ (dp : String → Bool) (fp : String) (header : List String)
      (rows : List (List String)) (sch : SchemaR) (j : Nat) (p : SProp),
      getSchemaR dp fp header rows = some sch →
      sch.properties[j]? = some p →
      (∀ t, tally dp (colVals j rows) t ≤ tally dp (colVals j rows) p.type) ∧
      (∀ t, tally dp (colVals j rows) t = tally dp (colVals j rows) p.type →
        prio p.type ≤ prio t)) ∧
    colType (fun _ => false)
      ["1", "2", "3", "4", "5", "6", "7", "8", "9", "stray word"] =
      .integer := by
  refine ⟨?_, by decide⟩
  intro dp fp header rows sch j p hsch hget
  have hptype : p.type = colType dp (colVals j rows) := by
    cases rows with
    | nil => simp [getSchemaR] at hsch
    | cons r rs =>
      simp only [getSchemaR, Option.some_inj] at hsch
      subst hsch
      simp only [inferProps, List.getElem?_map, List.getElem?_enum] at hget
      cases hh : header[j]? with
      | none => rw [hh] at hget; simp at hget
      | some k =>
        rw [hh] at hget
        simp at hget
        rw [← hget]
  rw [hptype]
  exact colType_spec dp (colVals j rows)

/-- Witness for C2 at a concrete one-column file. -/
theorem claim_C2_witness :
    tally (fun _ => false) (colVals 0 [["1"]]) .string ≤
      tally (fun _ => false) (colVals 0 [["1"]]) JsType.integer :=
  (claim_C2.1 (fun _ => false) "t.csv" ["a"] [["1"]]
      { name := "t", settings := ["t.csv"],
        properties := [⟨"a", .integer⟩] } 0 ⟨"a", .integer⟩
      (by decide) (by decide)).1 .string

/-! ## Claim theorems: row validation at publish time -/

/-- When every cell's runtime type matches its declared type, the scan finds
no mismatch. -/
theorem cvtGo_none (dp : String → Bool) :
    ∀ (cells : List String) (props : List SProp) (k : Nat),
      (∀ (j : Nat) (c : String) (p : SProp),
        cells[j]? = some c → props[j]? = some p →
        getTypeP dp c = p.type) →
      cvtGo dp k cells props = none := by
  intro cells
  induction cells with
  | nil => intro props k _; rfl
  | cons c0 cs ih =>
    intro props k h
    cases props with
    | nil => rfl
    | cons p0 ps =>
      have h0 : getTypeP dp c0 = p0.type := h 0 c0 p0 (by simp) (by simp)
      simp only [cvtGo, h0, ne_eq, not_true_eq_false, if_false]
      exact ih ps (k + 1) (fun j c p hc hp => h (j + 1) c p (by simpa using hc)
        (by simpa using hp))

/-- When the first mismatch is at position `i`, the scan started at offset
`k` reports it at absolute index `k + i` with the declared and observed
types. -/
theorem cvtGo_first (dp : String → Bool) :
    ∀ (i : Nat) (cells : List String) (props : List SProp) (c : String)
      (p : SProp) (k : Nat),
      cells[i]? = some c → props[i]? = some p →
      getTypeP dp c ≠ p.type →
      (∀ (j : Nat) (c2 : String) (p2 : SProp),
        j < i → cells[j]? = some c2 → props[j]? = some p2 →
        getTypeP dp c2 = p2.type) →
      cvtGo dp k cells props = some (k + i, p.type, getTypeP dp c) := by
  intro i
  induction i with
  | zero =>
    intro cells props c p k hc hp hne _
    cases cells with
    | nil => simp at hc
    | cons c0 cs =>
      cases props with
      | nil => simp at hp
      | cons p0 ps =>
        simp only [List.getElem?_cons_zero, Option.some_inj] at hc hp
        subst hc; subst hp
        simp [cvtGo, hne]
  | succ i ih =>
    intro cells props c p k hc hp hne hall
    cases cells with
    | nil => simp at hc
    | cons c0 cs =>
      cases props with
      | nil => simp at hp
      | cons p0 ps =>
        have h0 : getTypeP dp c0 = p0.type := hall 0 c0 p0 (Nat.succ_pos i)
          (by simp) (by simp)
        simp only [cvtGo, h0, ne_eq, not_true_eq_false, if_false]
        have := ih cs ps c p (k + 1) (by simpa using hc) (by simpa using hp)
          hne
          (fun j c2 p2 hj hc2 hp2 => hall (j + 1) c2 p2
            (Nat.succ_lt_succ hj) (by simpa using hc2) (by simpa using hp2))
        rw [this, show k + 1 + i = k + (i + 1) by omega]

/-- The all-cells conversion places `convertToType` of each cell at its own
index. -/
theorem convCells_get :
    ∀ (cells : List String) (props : List SProp) (j : Nat) (c : String)
      (p : SProp),
      cells[j]? = some c → props[j]? = some p →
      (convCells cells props)[j]? = some (convertToTypeP c p.type) := by
  intro cells
  induction cells with
  | nil => intro props j c p hc; simp at hc
  | cons c0 cs ih =>
    intro props j c p hc hp
    cases props with
    | nil => simp at hp
    | cons p0 ps =>
      cases j with
      | zero =>
        simp only [List.getElem?_cons_zero, Option.some_inj] at hc hp
        subst hc; subst hp
        simp [convCells]
      | succ j =>
        simpa [convCells] using ih ps j c p (by simpa using hc)
          (by simpa using hp)

/-- The skip-one conversion loop places `null` at the skipped absolute index
and `convertToType` of the cell everywhere else. -/
theorem convCellsNull_go_get (i : Nat) :
    ∀ (cells : List String) (props : List SProp) (k j : Nat) (c : String)
      (p : SProp),
      cells[j]? = some c → props[j]? = some p →
      (convCellsNull.go i k cells props)[j]? =
        some (if k + j = i then JsValue.nullVal
          else convertToTypeP c p.type) := by
  intro cells
  induction cells with
  | nil => intro props k j c p hc; simp at hc
  | cons c0 cs ih =>
    intro props k j c p hc hp
    cases props with
    | nil => simp at hp
    | cons p0 ps =>
      cases j with
      | zero =>
        simp only [List.getElem?_cons_zero, Option.some_inj] at hc hp
        subst hc; subst hp
        simp [convCellsNull.go]
      | succ j =>
        have := ih ps (k + 1) j c p (by simpa using hc) (by simpa using hp)
        simp only [convCellsNull.go, List.getElem?_cons_succ]
        rw [this, show k + 1 + j = k + (j + 1) by omega]

/-- Claim C3 as stated is false: the emitted error string names the expected
and observed types but not the mismatch index — at a row whose column 2
fails a boolean declaration the error is
`Expected type: boolean but got type: string`, which does not contain
`"2"`. -/
theorem claim_C3_cex :
    publishRow (fun _ => false)
      [⟨"a", .string⟩, ⟨"b", .string⟩, ⟨"c", .boolean⟩]
      ["x y", "z w", "blue"] =
      some { invalid := true,
             error := some "Expected type: boolean but got type: string",
             data := [.strVal "x y", .strVal "z w", .nullVal] } ∧
    namesNat "Expected type: boolean but got type: string" 2 = false := by
  decide

/-- Claim C3 (amended): for a row whose cell count equals the property
count, if every cell re-classifies to its declared type the emitted record
is valid, with no error and every cell converted per its declared type; if
the first mismatch is at index `i`, the record is invalid, carries the error
naming the expected and observed types (the index is not part of the error
string), has `null` at index `i`, and every other cell converted per its
declared type. -/
theorem claim_C3_amended :
    ∀ (dp : String → Bool) (props : List SProp) (row : List String),
      row.length = props.length →
      ((∀ (j : Nat) (c : String) (p : SProp),
          row[j]? = some c → props[j]? = some p →
          getTypeP dp c = p.type) →
        publishRow dp props row =
          some { invalid := false, error := none,
                 data := convCells row props } ∧
        ∀ (j : Nat) (c : String) (p : SProp),
          row[j]? = some c → props[j]? = some p →
          (convCells row props)[j]? = some (convertToTypeP c p.type)) ∧
      (∀ (i : Nat) (c : String) (p : SProp),
        row[i]? = some c → props[i]? = some p →
        getTypeP dp c ≠ p.type →
        (∀ (j : Nat) (c2 : String) (p2 : SProp),
          j < i → row[j]? = some c2 → props[j]? = some p2 →
          getTypeP dp c2 = p2.type) →
        publishRow dp props row =
          some { invalid := true,
                 error := some (errMsg p.type (getTypeP dp c)),
                 data := convCellsNull i row props } ∧
        (convCellsNull i row props)[i]? = some JsValue.nullVal ∧
        (∀ (j : Nat) (c2 : String) (p2 : SProp),
          j ≠ i → row[j]? = some c2 → props[j]? = some p2 →
          (convCellsNull i row props)[j]? =
            some (convertToTypeP c2 p2.type))) := by
  intro dp props row hlen
  constructor
  · intro hall
    have hnone : checkValidTypes dp row props = none :=
      cvtGo_none dp row props 0 hall
    constructor
    · simp [publishRow, hlen, hnone]
    · exact fun j c p hc hp => convCells_get row props j c p hc hp
  · intro i c p hc hp hne hall
    have hfirst : checkValidTypes dp row props =
        some (i, p.type, getTypeP dp c) := by
      have := cvtGo_first dp i row props c p 0 hc hp hne hall
      simpa [checkValidTypes] using this
    refine ⟨by simp [publishRow, hlen, hfirst], ?_, ?_⟩
    · have := convCellsNull_go_get i row props 0 i c p hc hp
      simpa [convCellsNull] using this
    · intro j c2 p2 hj hc2 hp2
      have := convCellsNull_go_get i row props 0 j c2 p2 hc2 hp2
      simpa [convCellsNull, hj] using this

/-- Witness for C3 at a concrete mismatching row: column 2 declared boolean
receives `"blue"`. -/
theorem claim_C3_witness :
    publishRow (fun _ => false)
      [⟨"id", .integer⟩, ⟨"name", .string⟩, ⟨"extinct", .boolean⟩]
      ["52", "fox", "blue"] =
      some { invalid := true,
             error := some (errMsg JsType.boolean
               (getTypeP (fun _ => false) "blue")),
             data := convCellsNull 2
               ["52", "fox", "blue"]
               [⟨"id", .integer⟩, ⟨"name", .string⟩,
                ⟨"extinct", .boolean⟩] } :=
  ((claim_C3_amended (fun _ => false)
      [⟨"id", .integer⟩, ⟨"name", .string⟩, ⟨"extinct", .boolean⟩]
      ["52", "fox", "blue"] (by decide)).2 2 "blue" ⟨"extinct", .boolean⟩
      (by decide) (by decide) (by decide)
      (by intro j c2 p2 hj hc2 hp2
          interval_cases j <;>
            (simp only [List.getElem?_cons_zero, List.getElem?_cons_succ,
               Option.some_inj] at hc2 hp2
             subst hc2; subst hp2; decide))).1

/-! ## Claim theorems: record counting and dropped rows -/

/-- A row is published iff its cell count equals the property count; the
check outcome only shapes the record, never suppresses it. -/
theorem publishRow_some (dp : String → Bool) (props : List SProp)
    (row : List String) :
    (publishRow dp props row).isSome = (row.length == props.length) := by
  unfold publishRow
  split_ifs with h <;> simp [h]

/-- One `publishFile` emits exactly one record per row whose cell count
matches the schema. -/
theorem publishFileRecs_length (dp : String → Bool) (props : List SProp) :
    ∀ rows : List (List String),
      (publishFileRecs dp props rows).length =
        (rows.filter (fun r => r.length == props.length)).length := by
  intro rows
  induction rows with
  | nil => rfl
  | cons r rs ih =>
    by_cases h : r.length = props.length
    · have hs : (publishRow dp props r).isSome = true := by
        simp [publishRow_some, h]
      obtain ⟨rec, hrec⟩ := Option.isSome_iff_exists.mp hs
      simp [publishFileRecs, List.filterMap_cons, List.filter_cons, hrec, h,
        publishFileRecs] at ih ⊢
      exact ih
    · have hn : publishRow dp props r = none := by
        cases ho : publishRow dp props r with
        | none => rfl
        | some rec =>
          exfalso
          have := publishRow_some dp props r
          rw [ho] at this
          simp at this
          exact h this
      simp [publishFileRecs, List.filterMap_cons, List.filter_cons, hn, h,
        publishFileRecs] at ih ⊢
      exact ih

/-- Claim C4: Publish emits exactly one record per data row whose cell count
equals the schema's property count — over files totaling R such rows exactly
R records — and every row with a different cell count is silently dropped:
no record and no error is produced for it. -/
theorem claim_C4 :
    (∀ (dp : String → Bool) (props : List SProp)
      (files : List (List (List String))),
      (∀ f ∈ files, ∀ r ∈ f, r.length = props.length) →
      (publishAll dp props files).length = (files.map List.length).sum) ∧
    (∀ (dp : String → Bool) (props : List SProp) (row : List String),
      row.length ≠ props.length → publishRow dp props row = none) ∧
    (∀ (dp : String → Bool) (props : List SProp)
      (rows : List (List String)),
      (publishFileRecs dp props rows).length =
        (rows.filter (fun r => r.length == props.length)).length) := by
  refine ⟨?_, ?_, fun dp props rows => publishFileRecs_length dp props rows⟩
  · intro dp props files hall
    induction files with
    | nil => rfl
    | cons f fs ih =>
      have hf : (publishFileRecs dp props f).length = f.length := by
        rw [publishFileRecs_length]
        congr 1
        apply List.filter_eq_self.mpr
        intro r hr
        simp [hall f (by simp) r hr]
      have hfs := ih (fun g hg r hr => hall g (by simp [hg]) r hr)
      simp [publishAll] at hfs ⊢
      omega
  · intro dp props row h
    simp [publishRow, h]

/-- Witness for C4: two files of one well-formed row each yield two records,
and a two-cell row against a one-property schema is dropped. -/
theorem claim_C4_witness :
    (publishAll (fun _ => false) [⟨"id", .integer⟩] [[["1"]], [["2"]]]).length
      = 2 ∧
    publishRow (fun _ => false) [⟨"id", .integer⟩] ["5", "6"] = none :=
  ⟨claim_C4.1 (fun _ => false) [⟨"id", .integer⟩] [[["1"]], [["2"]]]
      (by decide),
   claim_C4.2.1 (fun _ => false) [⟨"id", .integer⟩] ["5", "6"] (by decide)⟩

/-! ## Claim theorems: discovery of empty files and schema naming -/

/-- Claim C6 as stated is false: a file with a header but zero data rows
yields no schema at all — `getSchema` reads the header keys from the first
data row object and fails when there is none — rather than a schema of
string-typed columns. -/
theorem claim_C6_cex :
    getSchemaR (fun _ => false) "empty.csv" ["a", "b"] [] = none := rfl

/-- Claim C6 (amended): for every file with a header but zero data rows,
discovery produces no schema: the per-file schema computation fails on the
empty row set instead of defaulting the columns to string. -/
theorem claim_C6_amended :
    ∀ (dp : String → Bool) (fp : String) (header : List String),
      getSchemaR dp fp header [] = none := fun _ _ _ => rfl

/-- Claim C8 as stated is false: the schema name is the base name of the
path truncated at the first `'.'` of the whole path, not the file name
without its extension — for `data/people.1.csv` the code produces `people`
while the file's extension-less base name is `people.1`. -/
theorem claim_C8_cex :
    (getSchemaR (fun _ => false) "data/people.1.csv" ["id"]
        [["1"]]).map SchemaR.name = some "people" ∧
    baseNameNoExtSpec "data/people.1.csv" = "people.1" ∧
    ("people" : String) ≠ "people.1" := by decide

/-- Claim C8 (amended): the per-file schema has `settings` equal to the
one-element list containing the file, `properties` equal to the inferred
columns, and `name` equal to the base name of the path prefix before the
path's first `'.'` (which coincides with the extension-less base name when
the only dot is the extension dot, as in `data/animals.csv`). -/
theorem claim_C8_amended :
    (∀ (dp : String → Bool) (fp : String) (header : List String)
      (rows : List (List String)),
      rows ≠ [] →
      getSchemaR dp fp header rows =
        some { name := jsBasenameExt (jsSplitFirstDot fp) ".csv"
               settings := [fp]
               properties := inferProps dp header rows }) ∧
    jsBasenameExt (jsSplitFirstDot "data/animals.csv") ".csv" = "animals" ∧
    baseNameNoExtSpec "data/animals.csv" = "animals" ∧
    jsBasenameExt (jsSplitFirstDot "data/people.1.csv") ".csv" =
      "people" := by
  refine ⟨?_, by decide, by decide, by decide⟩
  intro dp fp header rows h
  cases rows with
  | nil => exact absurd rfl h
  | cons r rs => rfl

/-- Witness for C8 at a concrete file. -/
theorem claim_C8_witness :
    getSchemaR (fun _ => false) "a/b.csv" ["h"] [["1"]] =
      some { name := jsBasenameExt (jsSplitFirstDot "a/b.csv") ".csv"
             settings := ["a/b.csv"]
             properties := inferProps (fun _ => false) ["h"] [["1"]] } :=
  claim_C8_amended.1 (fun _ => false) "a/b.csv" ["h"] [["1"]] (by decide)

/-! ## Claim theorems: host startup handshake -/

/-- Claim C7 as stated is false: acceptance is not restricted to positive
ports — the line `"0"` parses under `strconv.Atoi` and is accepted with port
0, `"-17"` is accepted with a negative port, and a plugin that exits early
with status 0 makes the host exit cleanly rather than fail. -/
theorem claim_C7_cex :
    hostStartup (.gotLine "0") = .accepted 0 ∧
    ¬ (0 : Int) > 0 ∧
    hostStartup (.gotLine "-17") = .accepted (-17) ∧
    hostStartup (.exited 0) ≠ .fatalError := by decide

/-- Claim C7 (amended): the host reads exactly one line and accepts the
handshake iff that line parses as an integer under Go's `strconv.Atoi`
(optional sign, decimal digits, `int64` range, any value including zero and
negatives), the accepted port being the parsed value; the startup timeout
and an unparsable line are fatal; early plugin exit is fatal when the exit
code is nonzero, while exit code 0 makes the host exit cleanly. -/
theorem claim_C7_amended :
    (∀ (l : String) (p : Int),
      hostStartup (.gotLine l) = .accepted p ↔ goAtoi l = some p) ∧
    (∀ l : String, goAtoi l = none →
      hostStartup (.gotLine l) = .fatalError) ∧
    hostStartup .timeout = .fatalError ∧
    (∀ c : Int, c ≠ 0 → hostStartup (.exited c) = .fatalError) ∧
    hostStartup (.exited 0) = .cleanExit := by
  refine ⟨?_, ?_, rfl, ?_, by simp [hostStartup]⟩
  · intro l p
    unfold hostStartup
    cases h : goAtoi l <;> simp [h]
  · intro l h
    unfold hostStartup
    simp [h]
  · intro c h
    simp [hostStartup, h]

/-- Witness for C7 at concrete events: the plugin's usual `5000` line is
accepted with port 5000, and a nonzero early exit is fatal. -/
theorem claim_C7_witness :
    hostStartup (.gotLine "5000") = .accepted 5000 ∧
    hostStartup (.exited 1) = .fatalError :=
  ⟨(claim_C7_amended.1 "5000" 5000).mpr (by decide),
   claim_C7_amended.2.2.2.1 1 (by decide)⟩

end CsvPlugin
